import Mathlib

/-!
Verification of the Collibra asset/resource counter.

The Python sources are shallowly embedded: each `def` below mirrors one
function of `src/async_utils.py`, `src/optimized_counts.py`,
`src/get_all_assets.py` or `src/main.py`.  HTTP traffic is modelled by an
oracle: a function from the call slot (global request index) and the request
descriptor to either a parsed JSON body or an exception message, which is
exactly the information `aiohttp` + `response.json()` deliver to the code.
-/

namespace Collibra

/-- Parsed JSON values, as `response.json()` returns them. -/
inductive Json where
  | null : Json
  | bool (b : Bool) : Json
  | num (n : Int) : Json
  | str (s : String) : Json
  | arr (xs : List Json) : Json
  | obj (fields : List (String × Json)) : Json

/-- First-match association lookup; Python dicts have unique keys, so this is
dict indexing / the `in` operator. -/
def dictFind {α : Type} : List (String × α) → String → Option α
  | [], _ => none
  | (k, v) :: rest, key => if k = key then some v else dictFind rest key

/-- `key in d` / `d[key]` on a JSON value: a field of an object, absent
otherwise (non-dict values are never indexed on the reachable paths). -/
def Json.lookup : Json → String → Option Json
  | .obj fields, key => dictFind fields key
  | _, _ => none

/-- `aiohttp.BasicAuth` credentials (the program only ever passes `None`). -/
structure BasicAuth where
  login : String
  password : String

/-- One request dictionary as built in `optimized_counts.py`: the keys
`method` and `json` are absent there, so `request_info.get('method','GET')`
and `request_info.get('json')` are modelled by the defaults. -/
structure RequestInfo where
  method : String := "GET"
  url : String
  params : List (String × String) := []
  jsonBody : Option Json := none
  headers : List (String × String) := [("Content-Type", "application/json")]
  type : String := ""
  asset_id : String := ""

/-- The `{'error': str(e)}` marker returned by `fetch` on any exception. -/
def errorMarker (msg : String) : Json :=
  Json.obj [("error", Json.str msg)]

/-- Network oracle: authentication of the enclosing session, the global call
slot and the request dictionary determine either the parsed JSON body or the
exception message raised during that one request. -/
abbrev Net := Option BasicAuth → Nat → RequestInfo → Except String Json

/-- `fetch` of `async_utils.py`: returns the parsed body, and converts any
exception into the error marker for that one request. -/
def fetch (outcome : Except String Json) : Json :=
  match outcome with
  | .ok body => body
  | .error e => errorMarker e

/-- `asyncio.gather` over `fetch` tasks for consecutive call slots starting
at `i`: one result per request, in order. -/
def fetchFrom (net : Nat → RequestInfo → Except String Json) : Nat → List RequestInfo → List Json
  | _, [] => []
  | i, r :: rs => fetch (net i r) :: fetchFrom net (i + 1) rs

/-- The chunking loop of `make_concurrent_requests`
(`for i in range(0, len(urls), chunk_size)` with slices `urls[i:i+chunk_size]`,
a sleep when `i + chunk_size < len(urls)`).  Returns the collected results
and the number of inter-chunk sleeps.  `chunk_size = 0` would raise
`ValueError` in Python (`range` with step 0), hence the positivity argument. -/
def mcrGo (net : Nat → RequestInfo → Except String Json) (chunk_size : Nat)
    (hcs : 0 < chunk_size) : Nat → List RequestInfo → List Json × Nat
  | _, [] => ([], 0)
  | i, u :: us =>
    let chunk := (u :: us).take chunk_size
    let rest := (u :: us).drop chunk_size
    let r := mcrGo net chunk_size hcs (i + chunk.length) rest
    (fetchFrom net i chunk ++ r.1, (if rest.isEmpty then 0 else 1) + r.2)
termination_by i l => l.length
decreasing_by
  simp only [List.length_drop, List.length_cons]
  omega

/-- `make_concurrent_requests` of `async_utils.py`: one session is opened
with `auth`, the request list is processed in chunks, results are collected
in order.  The second component counts the inter-chunk sleeps. -/
def make_concurrent_requests (net : Net) (auth : Option BasicAuth)
    (urls : List RequestInfo) (chunk_size : Nat) (hcs : 0 < chunk_size) :
    List Json × Nat :=
  mcrGo (net auth) chunk_size hcs 0 urls

/-- The consecutive slices `urls[i:i+chunk_size]` the loop iterates over. -/
def chunksOf {α : Type} (chunk_size : Nat) (hcs : 0 < chunk_size) :
    List α → List (List α)
  | [] => []
  | u :: us => (u :: us).take chunk_size :: chunksOf chunk_size hcs ((u :: us).drop chunk_size)
termination_by l => l.length
decreasing_by
  simp only [List.length_drop, List.length_cons]
  omega

/-! ## Count aggregator (`optimized_counts.py`) -/

/-- The shared headers dict of `get_counts_async`. -/
def countHeaders (bearer_token : String) : List (String × String) :=
  [("Authorization", "Bearer " ++ bearer_token), ("Content-Type", "application/json")]

/-- One attributes-count request of `get_counts_async`. -/
def attributeRequest (base_url bearer_token asset_id : String) : RequestInfo :=
  { url := base_url ++ "/rest/2.0/attributes",
    params := [("offset", "0"), ("limit", "0"), ("countLimit", "-1"),
               ("assetId", asset_id), ("sortOrder", "DESC"), ("sortField", "LAST_MODIFIED")],
    headers := countHeaders bearer_token,
    type := "attribute",
    asset_id := asset_id }

/-- One incoming-relations-count request of `get_counts_async`. -/
def incomingRequest (base_url bearer_token asset_id : String) : RequestInfo :=
  { url := base_url ++ "/rest/2.0/relations",
    params := [("offset", "0"), ("limit", "0"), ("countLimit", "-1"),
               ("targetId", asset_id), ("sourceTargetLogicalOperator", "AND")],
    headers := countHeaders bearer_token,
    type := "incoming",
    asset_id := asset_id }

/-- One outgoing-relations-count request of `get_counts_async`. -/
def outgoingRequest (base_url bearer_token asset_id : String) : RequestInfo :=
  { url := base_url ++ "/rest/2.0/relations",
    params := [("offset", "0"), ("limit", "0"), ("countLimit", "-1"),
               ("sourceId", asset_id), ("sourceTargetLogicalOperator", "AND")],
    headers := countHeaders bearer_token,
    type := "outgoing",
    asset_id := asset_id }

/-- One responsibilities-count request of `get_counts_async`. -/
def responsibilityRequest (base_url bearer_token asset_id : String) : RequestInfo :=
  { url := base_url ++ "/rest/2.0/responsibilities",
    params := [("offset", "0"), ("limit", "0"), ("countLimit", "-1"),
               ("resourceIds", asset_id), ("includeInherited", "true"),
               ("sortField", "LAST_MODIFIED"), ("sortOrder", "DESC")],
    headers := countHeaders bearer_token,
    type := "responsibility",
    asset_id := asset_id }

/-- The request list of `get_counts_async`: four sequential loops over
`asset_ids`, one per category, appended in source order. -/
def get_counts_requests (base_url bearer_token : String) (asset_ids : List String) :
    List RequestInfo :=
  asset_ids.map (attributeRequest base_url bearer_token)
    ++ asset_ids.map (incomingRequest base_url bearer_token)
    ++ asset_ids.map (outgoingRequest base_url bearer_token)
    ++ asset_ids.map (responsibilityRequest base_url bearer_token)

/-- The per-asset count dictionary; Python initialises each field to the
integer `0` and overwrites a field with `response['total']` verbatim. -/
structure CountRecord where
  attributes : Json := Json.num 0
  incoming : Json := Json.num 0
  outgoing : Json := Json.num 0
  responsibilities : Json := Json.num 0

/-- The `if/elif` chain on `count_type` in `get_counts_async` (a tag outside
the four known categories updates nothing, as in the source). -/
def CountRecord.setField (r : CountRecord) (count_type : String) (total : Json) : CountRecord :=
  if count_type = "attribute" then { r with attributes := total }
  else if count_type = "incoming" then { r with incoming := total }
  else if count_type = "outgoing" then { r with outgoing := total }
  else if count_type = "responsibility" then { r with responsibilities := total }
  else r

/-- Python dict assignment `d[k] = v`: overwrite in place if the key exists,
append otherwise (insertion order preserved). -/
def pyDictInsert {α : Type} (m : List (String × α)) (k : String) (v : α) :
    List (String × α) :=
  if (dictFind m k).isSome then m.map (fun p => if p.1 = k then (p.1, v) else p)
  else m ++ [(k, v)]

/-- In-place update `d[k][...] = v` of an existing entry.  In
`get_counts_async` the key is always present (every request's `asset_id`
comes from `asset_ids`, which seeds the dict), so the missing-key `KeyError`
path of Python is unreachable and the no-op here is never observed. -/
def dictSet (m : List (String × CountRecord)) (k : String)
    (f : CountRecord → CountRecord) : List (String × CountRecord) :=
  m.map (fun p => if p.1 = k then (p.1, f p.2) else p)

/-- `{asset_id: {'attributes': 0, 'incoming': 0, 'outgoing': 0,
'responsibilities': 0} for asset_id in asset_ids}`. -/
def initCounts (asset_ids : List String) : List (String × CountRecord) :=
  asset_ids.foldl (fun m aid => pyDictInsert m aid {}) []

/-- One iteration of the `for request, response in zip(requests, responses)`
loop: if `'total' in response`, the tagged field of the tagged asset is set. -/
def applyPair (m : List (String × CountRecord)) (pr : RequestInfo × Json) :
    List (String × CountRecord) :=
  match pr.2.lookup "total" with
  | some total => dictSet m pr.1.asset_id (fun r => r.setField pr.1.type total)
  | none => m

/-- Positivity of the default `chunk_size=10` of `make_concurrent_requests`. -/
def ten_pos : 0 < 10 := by decide

/-- `get_counts_async` of `optimized_counts.py`: build the 4·|ids| requests,
fetch them in one batch (auth `None`, default chunk size 10), then fold the
zipped request/response pairs into the zero-initialised count dictionary. -/
def get_counts_async (net : Net) (asset_ids : List String)
    (base_url bearer_token : String) : List (String × CountRecord) :=
  let requests := get_counts_requests base_url bearer_token asset_ids
  let responses := (make_concurrent_requests net none requests 10 ten_pos).1
  (requests.zip responses).foldl applyPair (initCounts asset_ids)

/-! ## Asset enumerator (`get_all_assets.py`) -/

/-- The GraphQL query literal of `get_all_assets_async`, with its fixed
`limit: 50000`. -/
def assetsQuery : String :=
  "\n    query Assets($typeId: UUID!) \x7b\n        assets(\n            where: \x7b type: \x7b id: \x7b eq: $typeId \x7d \x7d \x7d\n            limit: 50000\n        ) \x7b\n            id\n        \x7d\n    \x7d\n    "

/-- The GraphQL endpoint URL built in `get_all_assets_async`. -/
def gqlUrl (base_url : String) : String :=
  base_url ++ "/graphql/knowledgeGraph/v1"

/-- The `payload` dict of `get_all_assets_async`. -/
def assetsPayload (asset_type_id : String) : Json :=
  Json.obj [("query", Json.str assetsQuery),
            ("variables", Json.obj [("typeId", Json.str asset_type_id)])]

/-- The `headers` dict of `get_all_assets_async`. -/
def gqlHeaders (bearer_token : String) : List (String × String) :=
  [("Authorization", "Bearer " ++ bearer_token), ("Content-Type", "application/json")]

/-- Oracle for the single GraphQL POST: given url, payload and headers it
yields either a raised exception message (network error) or the HTTP status
together with the result of `response.json()` (which itself can raise). -/
abbrev GqlNet := String → Json → List (String × String) → Except String (Nat × Except String Json)

/-- The comprehension `[asset["id"] for asset in assets]`: `none` when some
element raises (missing `"id"` key / not a dict — caught by the enclosing
`except`, which returns `[]`).  Per the GraphQL schema ids are strings. -/
def extractIds : List Json → Option (List String)
  | [] => some []
  | a :: rest =>
    match a.lookup "id" with
    | some (Json.str s) => (extractIds rest).map (fun l => s :: l)
    | _ => none

/-- `get_all_assets_async` of `get_all_assets.py`.  Every failure branch —
network exception, non-200 status, body that fails to parse, a GraphQL
`errors` payload, a missing or malformed `data.assets` field, a failing id
extraction — returns `[]`.  (A non-dict value under a key is treated as the
key being absent; in Python those branches raise and are caught, returning
`[]` as well.) -/
def get_all_assets_async (gnet : GqlNet) (asset_type_id base_url bearer_token : String) :
    List String :=
  match gnet (gqlUrl base_url) (assetsPayload asset_type_id) (gqlHeaders bearer_token) with
  | .error _ => []
  | .ok (status, body) =>
    if status ≠ 200 then []
    else
      match body with
      | .error _ => []
      | .ok data =>
        if (data.lookup "errors").isSome then []
        else
          match data.lookup "data" with
          | some d =>
            match d.lookup "assets" with
            | some (Json.arr assets) => (extractIds assets).getD []
            | _ => []
          | none => []

/-! ## Report builder (`main.py`) -/

/-- One row of the report DataFrame, keys in the construction order of
`process_asset_type`. -/
structure Row where
  assetId : String
  assetTypeName : String
  assetTypeId : String
  attributeCount : Json
  incomingRelationCount : Json
  outgoingRelationCount : Json
  responsibilitiesRelationCount : Json

/-- `process_asset_type` of `main.py`: enumerate the assets; an empty
enumeration yields an empty DataFrame; otherwise fetch the counts and build
one row per asset id (`counts.get(asset_id, {})` then `.get(field, 0)`). -/
def process_asset_type (gnet : GqlNet) (net : Net)
    (asset_type_id asset_type_name base_url bearer_token : String) : List Row :=
  let asset_ids := get_all_assets_async gnet asset_type_id base_url bearer_token
  if asset_ids.isEmpty then []
  else
    let counts := get_counts_async net asset_ids base_url bearer_token
    asset_ids.map (fun aid =>
      let ac := (dictFind counts aid).getD {}
      { assetId := aid,
        assetTypeName := asset_type_name,
        assetTypeId := asset_type_id,
        attributeCount := ac.attributes,
        incomingRelationCount := ac.incoming,
        outgoingRelationCount := ac.outgoing,
        responsibilitiesRelationCount := ac.responsibilities })

/-- The name resolution of `main`: a falsy lookup result (None or the empty
string) falls back to `"AssetType_" + asset_type_id[:8]`. -/
def resolveTypeName (nameOf : String → Option String) (asset_type_id : String) : String :=
  match nameOf asset_type_id with
  | some s => if s = "" then "AssetType_" ++ asset_type_id.take 8 else s
  | none => "AssetType_" ++ asset_type_id.take 8

/-- One iteration of the per-asset-type loop in `main`: resolve the display
name, process the type, and store the DataFrame only when it is non-empty. -/
def mainLoopStep (gnet : GqlNet) (net : Net) (nameOf : String → Option String)
    (base_url bearer_token : String) (dfs : List (String × List Row)) (tid : String) :
    List (String × List Row) :=
  let nm := resolveTypeName nameOf tid
  let df := process_asset_type gnet net tid nm base_url bearer_token
  if df.isEmpty then dfs else pyDictInsert dfs nm df

/-- The `dataframes` dict built by the loop in `main`: one entry per asset
type whose DataFrame is non-empty, keyed by the resolved display name. -/
def buildDataframes (gnet : GqlNet) (net : Net) (nameOf : String → Option String)
    (base_url bearer_token : String) (asset_type_ids : List String) :
    List (String × List Row) :=
  asset_type_ids.foldl (mainLoopStep gnet net nameOf base_url bearer_token) []

/-- `int(value)` content of a count cell; counts are JSON integers on every
reachable path (`pandas` would raise on anything else when summing). -/
def Json.asInt : Json → Option Int
  | .num n => some n
  | _ => none

/-- `df[col].sum()` over one count column. -/
def colSum (df : List Row) (col : Row → Json) : Int :=
  (df.map (fun r => ((col r).asInt).getD 0)).sum

/-- One row of the `Summary` sheet of `save_to_excel`. -/
structure SummaryRow where
  assetType : String
  assetTypeId : String
  totalAssets : Nat
  totalAttributes : Int
  totalRelations : Int
  totalResponsibilities : Int

/-- The summary entry collected for one non-empty DataFrame in
`save_to_excel` (`df['assetTypeId'].iloc[0]` is the first row's type id). -/
def mkSummary (p : String × List Row) : SummaryRow :=
  { assetType := p.1,
    assetTypeId := ((p.2.head?).map (fun r => r.assetTypeId)).getD "",
    totalAssets := p.2.length,
    totalAttributes := colSum p.2 (fun r => r.attributeCount),
    totalRelations := colSum p.2 (fun r => r.incomingRelationCount)
      + colSum p.2 (fun r => r.outgoingRelationCount),
    totalResponsibilities := colSum p.2 (fun r => r.responsibilitiesRelationCount) }

/-- The `summary_data` list of `save_to_excel`: the loop over
`dataframes.items()` appends one entry per DataFrame, skipping empty ones. -/
def summaryRows : List (String × List Row) → List SummaryRow
  | [] => []
  | (nm, df) :: rest =>
    match df with
    | [] => summaryRows rest
    | r0 :: tl => mkSummary (nm, r0 :: tl) :: summaryRows rest

/-- The synthetic `TOTAL` row appended in `save_to_excel`. -/
def totalsRow (s : List SummaryRow) : SummaryRow :=
  { assetType := "TOTAL",
    assetTypeId := "",
    totalAssets := (s.map (fun r => r.totalAssets)).sum,
    totalAttributes := (s.map (fun r => r.totalAttributes)).sum,
    totalRelations := (s.map (fun r => r.totalRelations)).sum,
    totalResponsibilities := (s.map (fun r => r.totalResponsibilities)).sum }

/-- The rows written to the `Summary` sheet: nothing when `summary_df` is
empty, otherwise the entries followed by the totals row. -/
def summarySheet (dfs : List (String × List Row)) : List SummaryRow :=
  let s := summaryRows dfs
  if s.isEmpty then [] else s ++ [totalsRow s]

/-- `pd.concat(dataframes.values())`: the flat table written for CSV/JSON. -/
def finalRows (dfs : List (String × List Row)) : List Row :=
  (dfs.map (fun p => p.2)).flatten

/-! ## CSV serialisation

Modelled from the spec: the writing and re-reading of the report file are
delegated to `pandas.to_csv` / a reload step that is not part of this
repository's sources; the spec describes the output as a CSV file with the
seven report columns and a round-trip property.  The writer below is
standard minimally-quoted CSV (what `to_csv` emits by default) and the
reader is a standard CSV parser. -/

/-- `str(value)` rendering of a JSON scalar cell as `pandas` writes it;
count cells are integers on every reachable path. -/
def cellOfJson : Json → String
  | .num n => toString n
  | .str s => s
  | .bool b => if b then "True" else "False"
  | .null => ""
  | .arr _ => ""
  | .obj _ => ""

/-- The CSV header, in the column order of `process_asset_type`. -/
def headerCells : List String :=
  ["assetId", "assetTypeName", "assetTypeId", "attributeCount",
   "incomingRelationCount", "outgoingRelationCount", "responsibilitiesRelationCount"]

/-- One report row rendered to its seven cells, in column order. -/
def rowCells (r : Row) : List String :=
  [r.assetId, r.assetTypeName, r.assetTypeId,
   cellOfJson r.attributeCount, cellOfJson r.incomingRelationCount,
   cellOfJson r.outgoingRelationCount, cellOfJson r.responsibilitiesRelationCount]

/-- Modelled from the spec: a field must be quoted when it contains a
separator, a quote or a line break (minimal quoting). -/
def needsQuoteChars (l : List Char) : Bool :=
  l.any (fun c => c = ',' || c = '"' || c = '\n' || c = '\r')

/-- Modelled from the spec: inner quotes are doubled inside a quoted field. -/
def escapeChars : List Char → List Char
  | [] => []
  | c :: cs => if c = '"' then '"' :: '"' :: escapeChars cs else c :: escapeChars cs

/-- Modelled from the spec: one serialised field. -/
def csvFieldChars (s : String) : List Char :=
  if needsQuoteChars s.data then '"' :: (escapeChars s.data ++ ['"']) else s.data

/-- Modelled from the spec: one record, fields separated by commas. -/
def csvLineChars : List String → List Char
  | [] => []
  | [c] => csvFieldChars c
  | c :: c2 :: cs => csvFieldChars c ++ ',' :: csvLineChars (c2 :: cs)

/-- Modelled from the spec: the whole file, one terminated line per record. -/
def csvFileChars : List (List String) → List Char
  | [] => []
  | r :: rs => csvLineChars r ++ '\n' :: csvFileChars rs

/-- Modelled from the spec: the text written for a report (header row first,
then one line per row, as `to_csv(index=False)` produces). -/
def write_report (rows : List Row) : String :=
  String.mk (csvFileChars (headerCells :: rows.map rowCells))

/-- Modelled from the spec: the CSV reload automaton.  First argument: are we
inside a quoted field; then the remaining input, the current field, the
current record's finished fields, and the finished records. -/
def csvParseQ : Bool → List Char → List Char → List String → List (List String) →
    List (List String)
  | false, [], fld, row, acc =>
    if fld = [] ∧ row = [] then acc else acc ++ [row ++ [String.mk fld]]
  | false, c :: rest, fld, row, acc =>
    if c = ',' then csvParseQ false rest [] (row ++ [String.mk fld]) acc
    else if c = '\n' then csvParseQ false rest [] [] (acc ++ [row ++ [String.mk fld]])
    else if c = '"' ∧ fld = [] then csvParseQ true rest fld row acc
    else csvParseQ false rest (fld ++ [c]) row acc
  | true, [], fld, row, acc => acc ++ [row ++ [String.mk fld]]
  | true, [c], fld, row, acc =>
    if c = '"' then acc ++ [row ++ [String.mk fld]]
    else acc ++ [row ++ [String.mk (fld ++ [c])]]
  | true, c :: c2 :: rest, fld, row, acc =>
    if c = '"' then
      if c2 = '"' then csvParseQ true rest (fld ++ ['"']) row acc
      else csvParseQ false (c2 :: rest) fld row acc
    else csvParseQ true (c2 :: rest) (fld ++ [c]) row acc
termination_by _ l _ _ _ => l.length
decreasing_by all_goals simp only [List.length_cons]; omega

/-- Modelled from the spec: reload the written file into its grid of cells. -/
def csvParse (s : String) : List (List String) :=
  csvParseQ false s.data [] [] []

/-! ## Proof-side auxiliary definitions -/

/-- Concrete request fixture used by witnesses. -/
def wReqA : RequestInfo := { url := "https://x/a" }

/-- Concrete request fixture used by witnesses. -/
def wReqB : RequestInfo := { url := "https://x/b" }

/-- Oracle fixture: the request in call slot 0 raises, the rest return null. -/
def wNetFail0 : Net :=
  fun _ j _ => if j = 0 then .error "boom" else .ok Json.null

/-- Oracle fixture: every request returns null (no `total` field anywhere). -/
def wNetOkNull : Net :=
  fun _ _ _ => .ok Json.null

/-- Oracle fixture: every request raises. -/
def wNetDown : Net :=
  fun _ _ _ => .error "down"

/-- Oracle fixture: slot `j` returns `{'total': j}`. -/
def wNetTotals : Net :=
  fun _ j _ => .ok (Json.obj [("total", Json.num (Int.ofNat j))])

/-- Oracle fixture: the call in slot 2 times out, all others return
`{'total': 7}`. -/
def wNetOut2Fail : Net :=
  fun _ j _ => if j = 2 then .error "timeout" else .ok (Json.obj [("total", Json.num 7)])

/-- GraphQL oracle fixture: a successful call that returns no assets. -/
def wGqlEmptyOk : GqlNet :=
  fun _ _ _ => .ok (200, .ok (Json.obj [("data", Json.obj [("assets", Json.arr [])])]))

/-- GraphQL oracle fixture: the POST raises a network error. -/
def wGqlDown : GqlNet :=
  fun _ _ _ => .error "boom"

/-- GraphQL oracle fixture: the server answers HTTP 500. -/
def wGql500 : GqlNet :=
  fun _ _ _ => .ok (500, .ok Json.null)

/-- Concrete report row used by witnesses. -/
def wRow : Row :=
  { assetId := "A", assetTypeName := "T", assetTypeId := "tid1",
    attributeCount := Json.num 2, incomingRelationCount := Json.num 3,
    outgoingRelationCount := Json.num 4, responsibilitiesRelationCount := Json.num 5 }

/-- GraphQL oracle fixture: a successful call returning two asset ids. -/
def wGqlTwoAssets : GqlNet :=
  fun _ _ _ => .ok (200, .ok (Json.obj [("data",
    Json.obj [("assets", Json.arr [Json.obj [("id", Json.str "A")],
                                   Json.obj [("id", Json.str "B")]])])]))

/-- The zipped request/response pairs of `get_counts_async`, with the call
slot made explicit: pair `j` is `(requests[j], fetch-result of slot j)`. -/
def zipFetch (net : Nat → RequestInfo → Except String Json) :
    Nat → List RequestInfo → List (RequestInfo × Json)
  | _, [] => []
  | i, r :: rs => (r, fetch (net i r)) :: zipFetch net (i + 1) rs

/-- The effect of one zipped pair on a single asset's record (the body of
the demultiplexing loop, restricted to one dictionary entry). -/
def recordStep (r : CountRecord) (pr : RequestInfo × Json) : CountRecord :=
  match pr.2.lookup "total" with
  | some total => r.setField pr.1.type total
  | none => r

/-- `(response.lookup 'total').getD dflt`: the value a count field ends up
with after its own response is processed. -/
def totalOr (resp : Json) (dflt : Json) : Json :=
  (resp.lookup "total").getD dflt

/-! ## Lemmas about the batched fetcher -/

theorem fetchFrom_length (net : Nat → RequestInfo → Except String Json) :
    ∀ (i : Nat) (l : List RequestInfo), (fetchFrom net i l).length = l.length := by
  intro i l
  induction l generalizing i with
  | nil => rfl
  | cons u us ih => simp [fetchFrom, ih]

theorem fetchFrom_append (net : Nat → RequestInfo → Except String Json) :
    ∀ (a b : List RequestInfo) (i : Nat),
      fetchFrom net i (a ++ b) = fetchFrom net i a ++ fetchFrom net (i + a.length) b := by
  intro a
  induction a with
  | nil => intro b i; simp [fetchFrom]
  | cons u us ih =>
    intro b i
    have h : i + (us.length + 1) = (i + 1) + us.length := by omega
    simp [fetchFrom, ih, h]

theorem fetchFrom_getElem? (net : Nat → RequestInfo → Except String Json) :
    ∀ (l : List RequestInfo) (i j : Nat),
      (fetchFrom net i l)[j]? = (l[j]?).map (fun r => fetch (net (i + j) r)) := by
  intro l
  induction l with
  | nil => intro i j; simp [fetchFrom]
  | cons u us ih =>
    intro i j
    match j with
    | 0 => simp [fetchFrom]
    | j + 1 =>
      have h : i + (j + 1) = (i + 1) + j := by omega
      simp [fetchFrom, ih, h]

theorem mcrGo_fst (net : Nat → RequestInfo → Except String Json) (cs : Nat) (hcs : 0 < cs) :
    ∀ (n i : Nat) (l : List RequestInfo), l.length ≤ n →
      (mcrGo net cs hcs i l).1 = fetchFrom net i l := by
  intro n
  induction n with
  | zero =>
    intro i l hl
    have h0 : l = [] := List.eq_nil_of_length_eq_zero (Nat.le_zero.mp hl)
    subst h0
    simp [mcrGo, fetchFrom]
  | succ n ih =>
    intro i l hl
    match l with
    | [] => simp [mcrGo, fetchFrom]
    | u :: us =>
      have hrest : ((u :: us).drop cs).length ≤ n := by
        simp only [List.length_drop, List.length_cons]
        simp only [List.length_cons] at hl
        omega
      rw [mcrGo]
      simp only []
      rw [ih _ _ hrest]
      conv_rhs => rw [← List.take_append_drop cs (u :: us)]
      rw [fetchFrom_append]

theorem mcrGo_snd (net : Nat → RequestInfo → Except String Json) (cs : Nat) (hcs : 0 < cs) :
    ∀ (n i : Nat) (l : List RequestInfo), l.length ≤ n →
      (mcrGo net cs hcs i l).2 = (l.length + cs - 1) / cs - 1 := by
  intro n
  induction n with
  | zero =>
    intro i l hl
    have h0 : l = [] := List.eq_nil_of_length_eq_zero (Nat.le_zero.mp hl)
    subst h0
    simp [mcrGo]
    rw [Nat.div_eq_of_lt (by omega)]
  | succ n ih =>
    intro i l hl
    match l with
    | [] =>
      simp [mcrGo]
      rw [Nat.div_eq_of_lt (by omega)]
    | u :: us =>
      have hrest : ((u :: us).drop cs).length ≤ n := by
        simp only [List.length_drop, List.length_cons]
        simp only [List.length_cons] at hl
        omega
      rw [mcrGo]
      simp only []
      rw [ih _ _ hrest]
      by_cases hre : (u :: us).drop cs = []
      · have hsmall : us.length + 1 ≤ cs := by
          have hh := congrArg List.length hre
          simp only [List.length_drop, List.length_cons, List.length_nil] at hh
          omega
        rw [hre]
        have h1 : (([] : List RequestInfo).length + cs - 1) / cs = 0 := by
          simp only [List.length_nil]
          exact Nat.div_eq_of_lt (by omega)
        have h2 : ((u :: us).length + cs - 1) / cs = 1 := by
          simp only [List.length_cons]
          exact Nat.div_eq_of_lt_le (by omega) (by omega)
        rw [h1, h2]
        simp
      · have hbig : cs < us.length + 1 := by
          by_contra hc
          exact hre (List.drop_eq_nil_of_le (by simpa using Nat.le_of_not_lt hc))
        have hif : ((u :: us).drop cs).isEmpty = false := by
          simpa [List.isEmpty_iff] using hre
        rw [hif]
        have harith : (((u :: us).drop cs).length + cs - 1) / cs - 1
            = ((u :: us).length + cs - 1) / cs - 1 - 1 := by
          simp only [List.length_drop, List.length_cons]
          have hx : us.length + 1 - cs + cs - 1 = us.length := by omega
          have hy : us.length + 1 + cs - 1 = us.length + cs := by omega
          rw [hx, hy, Nat.add_div_right _ hcs]
          omega
        rw [harith]
        have hq : 1 ≤ ((u :: us).length + cs - 1) / cs - 1 := by
          simp only [List.length_cons]
          have hy : us.length + 1 + cs - 1 = us.length + cs := by omega
          rw [hy, Nat.add_div_right _ hcs]
          have h1 : 1 ≤ us.length / cs := by
            rw [Nat.one_le_div_iff hcs]
            omega
          omega
        simp only [Bool.false_eq_true, if_false]
        omega

theorem make_concurrent_requests_fst (net : Net) (auth : Option BasicAuth)
    (urls : List RequestInfo) (cs : Nat) (hcs : 0 < cs) :
    (make_concurrent_requests net auth urls cs hcs).1 = fetchFrom (net auth) 0 urls :=
  mcrGo_fst (net auth) cs hcs urls.length 0 urls (Nat.le_refl _)

theorem make_concurrent_requests_snd (net : Net) (auth : Option BasicAuth)
    (urls : List RequestInfo) (cs : Nat) (hcs : 0 < cs) :
    (make_concurrent_requests net auth urls cs hcs).2 = (urls.length + cs - 1) / cs - 1 :=
  mcrGo_snd (net auth) cs hcs urls.length 0 urls (Nat.le_refl _)

theorem make_concurrent_requests_getElem? (net : Net) (auth : Option BasicAuth)
    (urls : List RequestInfo) (cs : Nat) (hcs : 0 < cs) (j : Nat) :
    (make_concurrent_requests net auth urls cs hcs).1[j]? =
      (urls[j]?).map (fun r => fetch (net auth j r)) := by
  rw [make_concurrent_requests_fst, fetchFrom_getElem?]
  simp

/-! ## Lemmas about the chunk structure -/

theorem chunksOf_cons {α : Type} (cs : Nat) (hcs : 0 < cs) (l : List α) (hl : l ≠ []) :
    chunksOf cs hcs l = l.take cs :: chunksOf cs hcs (l.drop cs) := by
  match l with
  | [] => exact absurd rfl hl
  | u :: us => rw [chunksOf]

theorem chunksOf_flatten {α : Type} (cs : Nat) (hcs : 0 < cs) :
    ∀ (n : Nat) (l : List α), l.length ≤ n → (chunksOf cs hcs l).flatten = l := by
  intro n
  induction n with
  | zero =>
    intro l hl
    have h0 : l = [] := List.eq_nil_of_length_eq_zero (Nat.le_zero.mp hl)
    subst h0
    simp [chunksOf]
  | succ n ih =>
    intro l hl
    match l with
    | [] => simp [chunksOf]
    | u :: us =>
      rw [chunksOf]
      have hrest : ((u :: us).drop cs).length ≤ n := by
        simp only [List.length_drop, List.length_cons]
        simp only [List.length_cons] at hl
        omega
      simp only [List.flatten_cons, ih _ hrest]
      exact List.take_append_drop cs (u :: us)

theorem chunksOf_size_le {α : Type} (cs : Nat) (hcs : 0 < cs) :
    ∀ (n : Nat) (l : List α), l.length ≤ n → ∀ c ∈ chunksOf cs hcs l, c.length ≤ cs := by
  intro n
  induction n with
  | zero =>
    intro l hl c hc
    have h0 : l = [] := List.eq_nil_of_length_eq_zero (Nat.le_zero.mp hl)
    subst h0
    simp [chunksOf] at hc
  | succ n ih =>
    intro l hl c hc
    match l with
    | [] => simp [chunksOf] at hc
    | u :: us =>
      rw [chunksOf] at hc
      have hrest : ((u :: us).drop cs).length ≤ n := by
        simp only [List.length_drop, List.length_cons]
        simp only [List.length_cons] at hl
        omega
      rcases List.mem_cons.mp hc with h | h
      · subst h
        simp [List.length_take]
      · exact ih _ hrest c h

theorem chunksOf_twelve {α : Type} (l : List α) (hl : l.length = 12) :
    (chunksOf 10 (by decide) l).map List.length = [10, 2] := by
  have h1 : l ≠ [] := by
    intro h
    subst h
    simp at hl
  rw [chunksOf_cons 10 (by decide) l h1]
  have h2 : l.drop 10 ≠ [] := by
    intro h
    have hh := congrArg List.length h
    simp [hl] at hh
  rw [chunksOf_cons 10 (by decide) _ h2]
  have h3 : (l.drop 10).drop 10 = [] := by
    apply List.drop_eq_nil_of_le
    simp [hl]
  rw [h3]
  simp [chunksOf, List.length_take, List.length_drop, hl]

/-! ## Lemmas about the count dictionary -/

theorem dictFind_mapReplace {α : Type} (k aid : String) (f : α → α) :
    ∀ (m : List (String × α)),
      dictFind (m.map (fun p => if p.1 = k then (p.1, f p.2) else p)) aid
        = if k = aid then (dictFind m aid).map f else dictFind m aid := by
  intro m
  induction m with
  | nil => by_cases hk : k = aid <;> simp [dictFind, hk]
  | cons p rest ih =>
    simp only [List.map_cons]
    by_cases h1 : p.1 = k
    · rw [if_pos h1]
      by_cases h2 : k = aid
      · have hpa : p.1 = aid := by rw [h1, h2]
        simp [dictFind, hpa, h2]
      · have hpa : ¬ p.1 = aid := by
          rw [h1]
          exact h2
        simp [dictFind, hpa, h2, ih]
    · rw [if_neg h1]
      by_cases h3 : p.1 = aid
      · have h2 : ¬ k = aid := fun h => h1 (by rw [h3, h])
        simp [dictFind, h3, h2]
      · simp [dictFind, h3, ih]

theorem dictFind_mapReplaceVal {α : Type} (k aid : String) (v : α) (m : List (String × α)) :
    dictFind (m.map (fun p => if p.1 = k then (p.1, v) else p)) aid
      = if k = aid then (dictFind m aid).map (fun _ => v) else dictFind m aid := by
  simpa using dictFind_mapReplace k aid (fun _ => v) m

theorem dictFind_dictSet (m : List (String × CountRecord)) (k aid : String)
    (f : CountRecord → CountRecord) :
    dictFind (dictSet m k f) aid
      = if k = aid then (dictFind m aid).map f else dictFind m aid :=
  dictFind_mapReplace k aid f m

theorem dictFind_append {α : Type} (a b : List (String × α)) (aid : String) :
    dictFind (a ++ b) aid
      = match dictFind a aid with
        | some v => some v
        | none => dictFind b aid := by
  induction a with
  | nil => simp [dictFind]
  | cons p rest ih =>
    by_cases h : p.1 = aid <;> simp [dictFind, h, ih]

theorem dictFind_pyDictInsert {α : Type} (m : List (String × α)) (k aid : String) (v : α) :
    dictFind (pyDictInsert m k v) aid = if k = aid then some v else dictFind m aid := by
  unfold pyDictInsert
  by_cases hp : (dictFind m k).isSome
  · rw [if_pos hp, dictFind_mapReplaceVal]
    by_cases hk : k = aid
    · subst hk
      rcases Option.isSome_iff_exists.mp hp with ⟨x, hx⟩
      simp [hx]
    · simp [hk]
  · rw [if_neg hp, dictFind_append]
    by_cases hk : k = aid
    · subst hk
      have hnone : dictFind m k = none := Option.not_isSome_iff_eq_none.mp hp
      simp [hnone, dictFind]
    · cases hfound : dictFind m aid with
      | some x => simp [hfound, hk]
      | none => simp [hfound, dictFind, hk]

theorem dictFind_foldl_insert (aid : String) :
    ∀ (ids : List String) (m : List (String × CountRecord)),
      dictFind (ids.foldl (fun m a => pyDictInsert m a {}) m) aid
        = if aid ∈ ids then some {} else dictFind m aid := by
  intro ids
  induction ids with
  | nil => intro m; simp
  | cons a rest ih =>
    intro m
    rw [List.foldl_cons, ih]
    by_cases h : aid ∈ rest
    · simp [h]
    · by_cases h2 : a = aid
      · simp [h, h2, dictFind_pyDictInsert]
      · have h3 : ¬ aid ∈ a :: rest := by
          intro hc
          rcases List.mem_cons.mp hc with hc | hc
          · exact h2 hc.symm
          · exact h hc
        simp [h, h3, dictFind_pyDictInsert, h2]

theorem dictFind_initCounts (ids : List String) (aid : String) :
    dictFind (initCounts ids) aid = if aid ∈ ids then some {} else none :=
  dictFind_foldl_insert aid ids []

/-! ## Lemmas about the demultiplexing fold -/

theorem dictFind_foldl_applyPair (aid : String) :
    ∀ (prs : List (RequestInfo × Json)) (m : List (String × CountRecord)),
      dictFind (prs.foldl applyPair m) aid
        = (dictFind m aid).map
            (fun r => (prs.filter (fun pr => pr.1.asset_id == aid)).foldl recordStep r) := by
  intro prs
  induction prs with
  | nil =>
    intro m
    cases h : dictFind m aid <;> simp [h]
  | cons pr rest ih =>
    intro m
    rw [List.foldl_cons, ih]
    cases htot : pr.2.lookup "total" with
    | none =>
      have hap : applyPair m pr = m := by
        simp [applyPair, htot]
      rw [hap]
      by_cases hmem : pr.1.asset_id = aid
      · have hb : (pr.1.asset_id == aid) = true := by simp [hmem]
        simp only [List.filter_cons, hb, if_true, List.foldl_cons]
        have hstep : ∀ r, recordStep r pr = r := by
          intro r
          simp [recordStep, htot]
        cases h : dictFind m aid <;> simp [h, hstep]
      · have hb : (pr.1.asset_id == aid) = false := by simp [hmem]
        simp only [List.filter_cons, hb, Bool.false_eq_true, if_false]
    | some t =>
      have hap : applyPair m pr
          = dictSet m pr.1.asset_id (fun r => r.setField pr.1.type t) := by
        simp [applyPair, htot]
      rw [hap, dictFind_dictSet]
      by_cases heq : pr.1.asset_id = aid
      · have hb : (pr.1.asset_id == aid) = true := by simp [heq]
        simp only [heq, if_true, List.filter_cons, hb, List.foldl_cons]
        have hstep : ∀ r, recordStep r pr = r.setField pr.1.type t := by
          intro r
          simp [recordStep, htot]
        cases h : dictFind m aid <;> simp [h, hstep]
      · have hb : (pr.1.asset_id == aid) = false := by simp [heq]
        simp only [heq, if_false, List.filter_cons, hb, Bool.false_eq_true]

theorem zip_fetchFrom (net : Nat → RequestInfo → Except String Json) :
    ∀ (l : List RequestInfo) (i : Nat), l.zip (fetchFrom net i l) = zipFetch net i l := by
  intro l
  induction l with
  | nil => intro i; rfl
  | cons u us ih => intro i; simp [fetchFrom, zipFetch, List.zip_cons_cons, ih]

theorem zipFetch_append (net : Nat → RequestInfo → Except String Json) :
    ∀ (a b : List RequestInfo) (i : Nat),
      zipFetch net i (a ++ b) = zipFetch net i a ++ zipFetch net (i + a.length) b := by
  intro a
  induction a with
  | nil => intro b i; simp [zipFetch]
  | cons u us ih =>
    intro b i
    have h : i + (us.length + 1) = (i + 1) + us.length := by omega
    simp [zipFetch, ih, h]

theorem zipFetch_mem_snd (net : Nat → RequestInfo → Except String Json) :
    ∀ (l : List RequestInfo) (i : Nat) (pr : RequestInfo × Json),
      pr ∈ zipFetch net i l → ∃ j, pr.2 = fetch (net j pr.1) := by
  intro l
  induction l with
  | nil => intro i pr h; simp [zipFetch] at h
  | cons u us ih =>
    intro i pr h
    rw [zipFetch] at h
    rcases List.mem_cons.mp h with h | h
    · exact ⟨i, by rw [h]⟩
    · exact ih _ _ h

theorem filter_zipFetch_not_mem (net : Nat → RequestInfo → Except String Json)
    (mk : String → RequestInfo) (hmk : ∀ a, (mk a).asset_id = a) (aid : String) :
    ∀ (ids : List String) (i : Nat), aid ∉ ids →
      (zipFetch net i (ids.map mk)).filter (fun pr => pr.1.asset_id == aid) = [] := by
  intro ids
  induction ids with
  | nil => intro i h; rfl
  | cons a rest ih =>
    intro i h
    have ha : ¬ a = aid := fun hc => h (by rw [hc]; exact List.mem_cons_self _ _)
    have hrest : aid ∉ rest := fun hc => h (List.mem_cons_of_mem _ hc)
    have hb : ((mk a).asset_id == aid) = false := by simp [hmk, ha]
    simp only [List.map_cons, zipFetch, List.filter_cons, hb, Bool.false_eq_true, if_false]
    exact ih _ hrest

theorem filter_zipFetch_block (net : Nat → RequestInfo → Except String Json)
    (mk : String → RequestInfo) (hmk : ∀ a, (mk a).asset_id = a) (aid : String) :
    ∀ (ids : List String) (i k : Nat) (hk : k < ids.length), ids.Nodup →
      ids.get ⟨k, hk⟩ = aid →
      (zipFetch net i (ids.map mk)).filter (fun pr => pr.1.asset_id == aid)
        = [(mk aid, fetch (net (i + k) (mk aid)))] := by
  intro ids
  induction ids with
  | nil => intro i k hk; simp at hk
  | cons a rest ih =>
    intro i k hk hnd hget
    have hnd2 := List.nodup_cons.mp hnd
    match k with
    | 0 =>
      have ha : a = aid := hget
      have hb : ((mk a).asset_id == aid) = true := by simp [hmk, ha]
      simp only [List.map_cons, zipFetch, List.filter_cons, hb, if_true]
      rw [filter_zipFetch_not_mem net mk hmk aid rest (i + 1) (by rw [← ha]; exact hnd2.1)]
      simp [ha, hmk]
    | k + 1 =>
      have hget2 : rest.get ⟨k, by simpa using Nat.lt_of_succ_lt_succ hk⟩ = aid := hget
      have hmem : aid ∈ rest := by
        rw [← hget2]
        exact List.get_mem _ _ _
      have ha : ¬ a = aid := fun hc => hnd2.1 (by rw [hc]; exact hmem)
      have hb : ((mk a).asset_id == aid) = false := by simp [hmk, ha]
      simp only [List.map_cons, zipFetch, List.filter_cons, hb, Bool.false_eq_true, if_false]
      rw [ih (i + 1) k _ hnd2.2 hget2]
      have h : i + 1 + k = i + (k + 1) := by omega
      rw [h]

theorem recordStep_four (b t aid : String) (jA jI jO jR : Json) :
    ([(attributeRequest b t aid, jA), (incomingRequest b t aid, jI),
      (outgoingRequest b t aid, jO), (responsibilityRequest b t aid, jR)].foldl
        recordStep {})
    = { attributes := totalOr jA (Json.num 0), incoming := totalOr jI (Json.num 0),
        outgoing := totalOr jO (Json.num 0),
        responsibilities := totalOr jR (Json.num 0) } := by
  cases hA : jA.lookup "total" <;> cases hI : jI.lookup "total" <;>
    cases hO : jO.lookup "total" <;> cases hR : jR.lookup "total" <;>
      simp [recordStep, hA, hI, hO, hR, totalOr, CountRecord.setField,
        attributeRequest, incomingRequest, outgoingRequest, responsibilityRequest]

/-- Central characterisation of the count aggregator: for distinct asset ids,
the record stored for the `k`-th id is exactly the four `total` fields of its
own four responses (call slots `k`, `n+k`, `2n+k`, `3n+k`), each defaulting
to `0` when the response has no `total` field. -/
theorem get_counts_char (net : Net) (asset_ids : List String) (b t : String)
    (hnd : asset_ids.Nodup) (k : Nat) (hk : k < asset_ids.length) :
    dictFind (get_counts_async net asset_ids b t) (asset_ids.get ⟨k, hk⟩)
      = some
        { attributes :=
            totalOr (fetch (net none k
              (attributeRequest b t (asset_ids.get ⟨k, hk⟩)))) (Json.num 0),
          incoming :=
            totalOr (fetch (net none (asset_ids.length + k)
              (incomingRequest b t (asset_ids.get ⟨k, hk⟩)))) (Json.num 0),
          outgoing :=
            totalOr (fetch (net none (2 * asset_ids.length + k)
              (outgoingRequest b t (asset_ids.get ⟨k, hk⟩)))) (Json.num 0),
          responsibilities :=
            totalOr (fetch (net none (3 * asset_ids.length + k)
              (responsibilityRequest b t (asset_ids.get ⟨k, hk⟩)))) (Json.num 0) } := by
  set aid := asset_ids.get ⟨k, hk⟩ with haid
  have hget : asset_ids.get ⟨k, hk⟩ = aid := rfl
  have hmem : aid ∈ asset_ids := by
    rw [← hget]
    exact List.get_mem _ _ _
  simp only [get_counts_async]
  rw [make_concurrent_requests_fst, zip_fetchFrom, dictFind_foldl_applyPair,
    dictFind_initCounts, if_pos hmem]
  simp only [Option.map_some']
  congr 1
  simp only [get_counts_requests]
  rw [zipFetch_append, List.filter_append, zipFetch_append, List.filter_append,
    zipFetch_append, List.filter_append]
  simp only [List.length_append, List.length_map]
  rw [filter_zipFetch_block (net none) (attributeRequest b t) (fun a => rfl) aid
      asset_ids 0 k hk hnd hget,
    filter_zipFetch_block (net none) (incomingRequest b t) (fun a => rfl) aid
      asset_ids (0 + asset_ids.length) k hk hnd hget,
    filter_zipFetch_block (net none) (outgoingRequest b t) (fun a => rfl) aid
      asset_ids (0 + (asset_ids.length + asset_ids.length)) k hk hnd hget,
    filter_zipFetch_block (net none) (responsibilityRequest b t) (fun a => rfl) aid
      asset_ids (0 + (asset_ids.length + asset_ids.length + asset_ids.length)) k hk hnd hget]
  have e1 : 0 + k = k := by omega
  have e2 : 0 + asset_ids.length + k = asset_ids.length + k := by omega
  have e3 : 0 + (asset_ids.length + asset_ids.length) + k = 2 * asset_ids.length + k := by
    omega
  have e4 : 0 + (asset_ids.length + asset_ids.length + asset_ids.length) + k
      = 3 * asset_ids.length + k := by omega
  simp only [List.singleton_append, List.cons_append, List.nil_append]
  rw [e1, e2, e3, e4, recordStep_four]

/-! ## Claim theorems -/

/-- Claim C1: for every input list of request descriptors,
`make_concurrent_requests` returns a result list of exactly the same length
and in the same order as the input, where the result at each index is either
the parsed JSON response of that descriptor or the error marker
`{'error': message}`; a failure of one request yields the error marker at
that request's own index and does not change the result at any other index,
in the same chunk or in later chunks. -/
theorem claim_C1 (net : Net) (auth : Option BasicAuth) (urls : List RequestInfo)
    (chunk_size : Nat) (hcs : 0 < chunk_size) :
    (make_concurrent_requests net auth urls chunk_size hcs).1.length = urls.length ∧
    (∀ (j : Nat) (r : RequestInfo), urls[j]? = some r →
      (make_concurrent_requests net auth urls chunk_size hcs).1[j]?
        = some (match net auth j r with
                | .ok body => body
                | .error e => errorMarker e)) ∧
    (∀ (net2 : Net) (i : Nat),
      (∀ (j : Nat) (r : RequestInfo), j ≠ i → urls[j]? = some r →
        net2 auth j r = net auth j r) →
      ∀ (j : Nat), j ≠ i →
        (make_concurrent_requests net2 auth urls chunk_size hcs).1[j]?
          = (make_concurrent_requests net auth urls chunk_size hcs).1[j]?) := by
  refine ⟨?_, ?_, ?_⟩
  · rw [make_concurrent_requests_fst, fetchFrom_length]
  · intro j r hj
    rw [make_concurrent_requests_getElem?, hj]
    rfl
  · intro net2 i hagree j hji
    rw [make_concurrent_requests_getElem?, make_concurrent_requests_getElem?]
    cases hr : urls[j]? with
    | none => simp
    | some r =>
      simp only [Option.map_some']
      rw [hagree j r hji hr]

/-- Concrete instance of C1: with chunk size 1 and a two-request batch whose
slot 0 raises, the result at index 0 is the error marker and making slot 0
succeed instead does not change the result at index 1. -/
theorem claim_C1_witness :
    (make_concurrent_requests wNetFail0 none [wReqA, wReqB] 1 (by decide)).1[0]?
        = some (errorMarker "boom") ∧
    (make_concurrent_requests wNetOkNull none [wReqA, wReqB] 1 (by decide)).1[1]?
        = (make_concurrent_requests wNetFail0 none [wReqA, wReqB] 1 (by decide)).1[1]? :=
  ⟨(claim_C1 wNetFail0 none [wReqA, wReqB] 1 (by decide)).2.1 0 wReqA rfl,
   (claim_C1 wNetFail0 none [wReqA, wReqB] 1 (by decide)).2.2 wNetOkNull 0
     (fun j r hj _ => by
       simp [wNetOkNull, wNetFail0, hj])
     1 (by decide)⟩

/-- Claim C2: `make_concurrent_requests` partitions the descriptor list into
consecutive chunks of at most `chunk_size`, issues a total of
`len(descriptors)` requests, and performs a fixed pause between consecutive
chunks but not after the last one, so the number of inter-chunk pauses equals
`ceil(len/chunk_size) - 1`; in particular an input of 12 descriptors with
`chunk_size = 10` executes as 2 chunks (10 + 2) with exactly one pause
between them. -/
theorem claim_C2 (net : Net) (auth : Option BasicAuth) (urls : List RequestInfo)
    (chunk_size : Nat) (hcs : 0 < chunk_size) :
    ((chunksOf chunk_size hcs urls).flatten = urls ∧
      ∀ c ∈ chunksOf chunk_size hcs urls, c.length ≤ chunk_size) ∧
    (make_concurrent_requests net auth urls chunk_size hcs).1.length = urls.length ∧
    (make_concurrent_requests net auth urls chunk_size hcs).2
      = (urls.length + chunk_size - 1) / chunk_size - 1 ∧
    (urls.length = 12 → chunk_size = 10 →
      (chunksOf chunk_size hcs urls).map List.length = [10, 2] ∧
      (make_concurrent_requests net auth urls chunk_size hcs).2 = 1) := by
  refine ⟨⟨?_, ?_⟩, ?_, ?_, ?_⟩
  · exact chunksOf_flatten chunk_size hcs urls.length urls (Nat.le_refl _)
  · exact chunksOf_size_le chunk_size hcs urls.length urls (Nat.le_refl _)
  · rw [make_concurrent_requests_fst, fetchFrom_length]
  · exact make_concurrent_requests_snd net auth urls chunk_size hcs
  · intro h12 h10
    subst h10
    refine ⟨chunksOf_twelve urls h12, ?_⟩
    rw [make_concurrent_requests_snd, h12]

/-- Concrete instance of C2: 12 descriptors with chunk size 10 run as chunks
of sizes 10 and 2 with exactly one pause. -/
theorem claim_C2_witness :
    (chunksOf 10 (by decide) (List.replicate 12 wReqA)).map List.length = [10, 2] ∧
    (make_concurrent_requests wNetOkNull none (List.replicate 12 wReqA) 10 (by decide)).2
      = 1 :=
  (claim_C2 wNetOkNull none (List.replicate 12 wReqA) 10 (by decide)).2.2.2 rfl rfl

theorem foldl_recordStep_id (prs : List (RequestInfo × Json)) :
    ∀ (r : CountRecord), (∀ pr ∈ prs, pr.2.lookup "total" = none) →
      prs.foldl recordStep r = r := by
  induction prs with
  | nil => intro r _; rfl
  | cons pr rest ih =>
    intro r h
    rw [List.foldl_cons]
    have hstep : recordStep r pr = r := by
      simp [recordStep, h pr (List.mem_cons_self _ _)]
    rw [hstep]
    exact ih r (fun q hq => h q (List.mem_cons_of_mem _ hq))

/-- Claim C3: for every input list of asset ids, the mapping returned by
`get_counts` contains an entry for every input asset id, each entry having
all four fields present, with any field not populated by a response
defaulting to 0 — an asset whose fetches all failed is still present with
all-zero counts, never omitted. -/
theorem claim_C3 (net : Net) (asset_ids : List String) (b t aid : String)
    (hmem : aid ∈ asset_ids) :
    (∃ r : CountRecord, dictFind (get_counts_async net asset_ids b t) aid = some r) ∧
    ((∀ (j : Nat) (r : RequestInfo), r.asset_id = aid →
        (fetch (net none j r)).lookup "total" = none) →
      dictFind (get_counts_async net asset_ids b t) aid
        = some { attributes := Json.num 0, incoming := Json.num 0,
                 outgoing := Json.num 0, responsibilities := Json.num 0 }) := by
  constructor
  · simp only [get_counts_async]
    rw [make_concurrent_requests_fst, zip_fetchFrom, dictFind_foldl_applyPair,
      dictFind_initCounts, if_pos hmem]
    exact ⟨_, rfl⟩
  · intro hfail
    simp only [get_counts_async]
    rw [make_concurrent_requests_fst, zip_fetchFrom, dictFind_foldl_applyPair,
      dictFind_initCounts, if_pos hmem]
    simp only [Option.map_some']
    congr 1
    apply foldl_recordStep_id
    intro pr hpr
    have hsplit := List.mem_filter.mp hpr
    have haid : pr.1.asset_id = aid := by
      have hb := hsplit.2
      simpa using hb
    rcases zipFetch_mem_snd (net none) _ _ pr hsplit.1 with ⟨j, hj⟩
    rw [hj]
    exact hfail j pr.1 haid

/-- Concrete instance of C3: one asset id whose every request raises still
gets an all-zero entry. -/
theorem claim_C3_witness :
    dictFind (get_counts_async wNetDown ["a"] "https://x" "tok") "a"
      = some { attributes := Json.num 0, incoming := Json.num 0,
               outgoing := Json.num 0, responsibilities := Json.num 0 } :=
  (claim_C3 wNetDown ["a"] "https://x" "tok" "a" (by simp)).2 (fun _ _ _ => rfl)

/-- Claim C5: a response lacking `total`, or an error-marker response, leaves
exactly the one `CountRecord` field addressed by that request at its zero
default, while the other three fields of the same asset keep the values from
their own responses; and the records of all other assets are unaffected by
what happens on the failing request's call slot. -/
theorem claim_C5 (net : Net) (asset_ids : List String) (b t : String)
    (hnd : asset_ids.Nodup) (k : Nat) (hk : k < asset_ids.length)
    (hfail : (fetch (net none (2 * asset_ids.length + k)
        (outgoingRequest b t (asset_ids.get ⟨k, hk⟩)))).lookup "total" = none) :
    dictFind (get_counts_async net asset_ids b t) (asset_ids.get ⟨k, hk⟩)
      = some
        { attributes :=
            totalOr (fetch (net none k
              (attributeRequest b t (asset_ids.get ⟨k, hk⟩)))) (Json.num 0),
          incoming :=
            totalOr (fetch (net none (asset_ids.length + k)
              (incomingRequest b t (asset_ids.get ⟨k, hk⟩)))) (Json.num 0),
          outgoing := Json.num 0,
          responsibilities :=
            totalOr (fetch (net none (3 * asset_ids.length + k)
              (responsibilityRequest b t (asset_ids.get ⟨k, hk⟩)))) (Json.num 0) } ∧
    (∀ net2 : Net,
      (∀ (j : Nat) (r : RequestInfo), j ≠ 2 * asset_ids.length + k →
        net2 none j r = net none j r) →
      ∀ (k2 : Nat) (hk2 : k2 < asset_ids.length), k2 ≠ k →
        dictFind (get_counts_async net2 asset_ids b t) (asset_ids.get ⟨k2, hk2⟩)
          = dictFind (get_counts_async net asset_ids b t) (asset_ids.get ⟨k2, hk2⟩)) := by
  constructor
  · rw [get_counts_char net asset_ids b t hnd k hk]
    simp only [List.get_eq_getElem] at hfail
    simp [totalOr, hfail]
  · intro net2 hagree k2 hk2 hne
    rw [get_counts_char net asset_ids b t hnd k2 hk2,
      get_counts_char net2 asset_ids b t hnd k2 hk2]
    rw [hagree k2 _ (by omega), hagree (asset_ids.length + k2) _ (by omega),
      hagree (2 * asset_ids.length + k2) _ (by omega),
      hagree (3 * asset_ids.length + k2) _ (by omega)]

/-- Concrete instance of C5: the outgoing-relations request of the only
asset `"X"` times out (slot 2), its `outgoing` count is 0 while the other
three fields carry the totals of their own responses. -/
theorem claim_C5_witness :
    dictFind (get_counts_async wNetOut2Fail ["X"] "https://x" "tok") "X"
      = some { attributes := totalOr (fetch (wNetOut2Fail none 0
                 (attributeRequest "https://x" "tok" "X"))) (Json.num 0),
               incoming := totalOr (fetch (wNetOut2Fail none 1
                 (incomingRequest "https://x" "tok" "X"))) (Json.num 0),
               outgoing := Json.num 0,
               responsibilities := totalOr (fetch (wNetOut2Fail none 3
                 (responsibilityRequest "https://x" "tok" "X"))) (Json.num 0) } :=
  ((claim_C5 wNetOut2Fail ["X"] "https://x" "tok" (by simp) 0 (by decide)) rfl).1

theorem get_counts_requests_length (b t : String) (asset_ids : List String) :
    (get_counts_requests b t asset_ids).length = 4 * asset_ids.length := by
  simp only [get_counts_requests, List.length_append, List.length_map]
  omega

theorem get_counts_requests_getElem (b t : String) (asset_ids : List String)
    (k : Nat) (hk : k < asset_ids.length) :
    (get_counts_requests b t asset_ids)[k]?
        = some (attributeRequest b t (asset_ids.get ⟨k, hk⟩)) ∧
    (get_counts_requests b t asset_ids)[asset_ids.length + k]?
        = some (incomingRequest b t (asset_ids.get ⟨k, hk⟩)) ∧
    (get_counts_requests b t asset_ids)[2 * asset_ids.length + k]?
        = some (outgoingRequest b t (asset_ids.get ⟨k, hk⟩)) ∧
    (get_counts_requests b t asset_ids)[3 * asset_ids.length + k]?
        = some (responsibilityRequest b t (asset_ids.get ⟨k, hk⟩)) := by
  have hgk : asset_ids[k]? = some (asset_ids.get ⟨k, hk⟩) := by
    rw [List.getElem?_eq_getElem hk]
    simp
  refine ⟨?_, ?_, ?_, ?_⟩
  · rw [get_counts_requests]
    rw [List.getElem?_append_left (by simp; omega), List.getElem?_append_left (by simp; omega),
      List.getElem?_append_left (by simp; omega), List.getElem?_map, hgk]
    rfl
  · rw [get_counts_requests]
    rw [List.getElem?_append_left (by simp; omega), List.getElem?_append_left (by simp; omega),
      List.getElem?_append_right (by simp), List.length_map]
    have he : asset_ids.length + k - asset_ids.length = k := by omega
    rw [he, List.getElem?_map, hgk]
    rfl
  · rw [get_counts_requests]
    rw [List.getElem?_append_left (by simp; omega),
      List.getElem?_append_right (by simp; omega)]
    have he : 2 * asset_ids.length + k
        - (asset_ids.map (attributeRequest b t)
            ++ asset_ids.map (incomingRequest b t)).length = k := by
      simp only [List.length_append, List.length_map]
      omega
    rw [he, List.getElem?_map, hgk]
    rfl
  · rw [get_counts_requests]
    rw [List.getElem?_append_right (by simp; omega)]
    have he : 3 * asset_ids.length + k
        - (asset_ids.map (attributeRequest b t) ++ asset_ids.map (incomingRequest b t)
            ++ asset_ids.map (outgoingRequest b t)).length = k := by
      simp only [List.length_append, List.length_map]
      omega
    rw [he, List.getElem?_map, hgk]
    rfl

/-- Counterexample to claim C4 as stated: the four descriptors of one asset
do NOT target four distinct REST endpoints — the incoming-relations and
outgoing-relations descriptors target the same `/rest/2.0/relations` URL. -/
theorem claim_C4_counterexample :
    (incomingRequest "https://x" "tok" "A").url
      = (outgoingRequest "https://x" "tok" "A").url := rfl

/-- Claim C4 (amended): `get_counts` constructs exactly four request
descriptors per input asset id (one per count category), targeting three
distinct REST endpoints — incoming and outgoing relations share the
relations endpoint but differ in their query parameters (`targetId` versus
`sourceId`) — each with query parameter `limit=0`, each tagged with its
asset id and category; all `4 × |assetIds|` descriptors are submitted as a
single batch, and the response at index `i` is matched back to the
descriptor at index `i`, whose tag determines which field of which asset's
`CountRecord` receives the response's `total` value. -/
theorem claim_C4_amended (net : Net) (asset_ids : List String) (b t : String) :
    (get_counts_requests b t asset_ids).length = 4 * asset_ids.length ∧
    (∀ aid : String,
      (attributeRequest b t aid).url = b ++ "/rest/2.0/attributes" ∧
      (incomingRequest b t aid).url = b ++ "/rest/2.0/relations" ∧
      (outgoingRequest b t aid).url = b ++ "/rest/2.0/relations" ∧
      (responsibilityRequest b t aid).url = b ++ "/rest/2.0/responsibilities" ∧
      (incomingRequest b t aid).params ≠ (outgoingRequest b t aid).params ∧
      dictFind (attributeRequest b t aid).params "limit" = some "0" ∧
      dictFind (incomingRequest b t aid).params "limit" = some "0" ∧
      dictFind (outgoingRequest b t aid).params "limit" = some "0" ∧
      dictFind (responsibilityRequest b t aid).params "limit" = some "0" ∧
      (attributeRequest b t aid).type = "attribute" ∧
      (attributeRequest b t aid).asset_id = aid ∧
      (incomingRequest b t aid).type = "incoming" ∧
      (incomingRequest b t aid).asset_id = aid ∧
      (outgoingRequest b t aid).type = "outgoing" ∧
      (outgoingRequest b t aid).asset_id = aid ∧
      (responsibilityRequest b t aid).type = "responsibility" ∧
      (responsibilityRequest b t aid).asset_id = aid) ∧
    (asset_ids.Nodup → ∀ (k : Nat) (hk : k < asset_ids.length),
      dictFind (get_counts_async net asset_ids b t) (asset_ids.get ⟨k, hk⟩)
        = some
          { attributes :=
              totalOr (fetch (net none k
                (attributeRequest b t (asset_ids.get ⟨k, hk⟩)))) (Json.num 0),
            incoming :=
              totalOr (fetch (net none (asset_ids.length + k)
                (incomingRequest b t (asset_ids.get ⟨k, hk⟩)))) (Json.num 0),
            outgoing :=
              totalOr (fetch (net none (2 * asset_ids.length + k)
                (outgoingRequest b t (asset_ids.get ⟨k, hk⟩)))) (Json.num 0),
            responsibilities :=
              totalOr (fetch (net none (3 * asset_ids.length + k)
                (responsibilityRequest b t (asset_ids.get ⟨k, hk⟩)))) (Json.num 0) }) := by
  refine ⟨get_counts_requests_length b t asset_ids, ?_, ?_⟩
  · intro aid
    refine ⟨rfl, rfl, rfl, rfl, ?_, rfl, rfl, rfl, rfl, rfl, rfl, rfl, rfl, rfl, rfl,
      rfl, rfl⟩
    intro h
    have h1 : dictFind (incomingRequest b t aid).params "targetId"
        = dictFind (outgoingRequest b t aid).params "targetId" := by rw [h]
    have h2 : dictFind (incomingRequest b t aid).params "targetId" = some aid := rfl
    have h3 : dictFind (outgoingRequest b t aid).params "targetId" = none := rfl
    rw [h2, h3] at h1
    exact Option.noConfusion h1
  · intro hnd k hk
    exact get_counts_char net asset_ids b t hnd k hk

/-- Concrete instance of C4 (amended): for the single asset `"A"`, the
record is assembled from the `total` fields of the responses at the four
block indices 0, 1, 2, 3. -/
theorem claim_C4_witness :
    dictFind (get_counts_async wNetTotals ["A"] "https://x" "tok") "A"
      = some
        { attributes :=
            totalOr (fetch (wNetTotals none 0
              (attributeRequest "https://x" "tok" "A"))) (Json.num 0),
          incoming :=
            totalOr (fetch (wNetTotals none 1
              (incomingRequest "https://x" "tok" "A"))) (Json.num 0),
          outgoing :=
            totalOr (fetch (wNetTotals none 2
              (outgoingRequest "https://x" "tok" "A"))) (Json.num 0),
          responsibilities :=
            totalOr (fetch (wNetTotals none 3
              (responsibilityRequest "https://x" "tok" "A"))) (Json.num 0) } :=
  (claim_C4_amended wNetTotals ["A"] "https://x" "tok").2.2 (by simp) 0 (by decide)

/-- Claim C10: `get_counts` always invokes the batched fetcher with the
fetcher's default chunk size of 10 and a null auth argument (the bearer
token travels only in each descriptor's headers), and it orders the
`4 × |assetIds|` descriptors as four contiguous category blocks — every
attribute request (in input asset-id order), then every incoming-relations
request, then every outgoing-relations request, then every responsibilities
request — rather than interleaving the four requests of each asset. -/
theorem claim_C10 (net : Net) (asset_ids : List String) (b t : String) :
    get_counts_async net asset_ids b t
      = ((get_counts_requests b t asset_ids).zip
          (make_concurrent_requests net none
            (get_counts_requests b t asset_ids) 10 ten_pos).1).foldl
          applyPair (initCounts asset_ids) ∧
    (∀ net2 : Net, net2 none = net none →
      get_counts_async net2 asset_ids b t = get_counts_async net asset_ids b t) ∧
    (∀ r ∈ get_counts_requests b t asset_ids, r.headers = countHeaders t) ∧
    dictFind (countHeaders t) "Authorization" = some ("Bearer " ++ t) ∧
    (get_counts_requests b t asset_ids).length = 4 * asset_ids.length ∧
    (∀ (k : Nat) (hk : k < asset_ids.length),
      (get_counts_requests b t asset_ids)[k]?
          = some (attributeRequest b t (asset_ids.get ⟨k, hk⟩)) ∧
      (get_counts_requests b t asset_ids)[asset_ids.length + k]?
          = some (incomingRequest b t (asset_ids.get ⟨k, hk⟩)) ∧
      (get_counts_requests b t asset_ids)[2 * asset_ids.length + k]?
          = some (outgoingRequest b t (asset_ids.get ⟨k, hk⟩)) ∧
      (get_counts_requests b t asset_ids)[3 * asset_ids.length + k]?
          = some (responsibilityRequest b t (asset_ids.get ⟨k, hk⟩))) := by
  refine ⟨rfl, ?_, ?_, rfl, get_counts_requests_length b t asset_ids,
    get_counts_requests_getElem b t asset_ids⟩
  · intro net2 h
    simp only [get_counts_async, make_concurrent_requests]
    rw [h]
  · intro r hr
    simp only [get_counts_requests, List.mem_append, List.mem_map] at hr
    rcases hr with ((⟨a, _, rfl⟩ | ⟨a, _, rfl⟩) | ⟨a, _, rfl⟩) | ⟨a, _, rfl⟩ <;> rfl

/-- Concrete instance of C10: with two asset ids the descriptor at index 1
is the attribute request of the second id, and the requests at indices 3, 5
and 7 are its incoming, outgoing and responsibilities requests. -/
theorem claim_C10_witness :
    (get_counts_requests "https://x" "tok" ["a", "b"])[1]?
        = some (attributeRequest "https://x" "tok" "b") ∧
    (get_counts_requests "https://x" "tok" ["a", "b"])[3]?
        = some (incomingRequest "https://x" "tok" "b") ∧
    (get_counts_requests "https://x" "tok" ["a", "b"])[5]?
        = some (outgoingRequest "https://x" "tok" "b") ∧
    (get_counts_requests "https://x" "tok" ["a", "b"])[7]?
        = some (responsibilityRequest "https://x" "tok" "b") :=
  (claim_C10 wNetTotals ["a", "b"] "https://x" "tok").2.2.2.2.2 1 (by decide)

/-! ## Lemmas about the asset enumerator -/

theorem get_all_assets_error (gnet : GqlNet) (a b t e : String)
    (h : gnet (gqlUrl b) (assetsPayload a) (gqlHeaders t) = .error e) :
    get_all_assets_async gnet a b t = [] := by
  simp only [get_all_assets_async, h]

theorem get_all_assets_non200 (gnet : GqlNet) (a b t : String) (status : Nat)
    (body : Except String Json) (hs : status ≠ 200)
    (h : gnet (gqlUrl b) (assetsPayload a) (gqlHeaders t) = .ok (status, body)) :
    get_all_assets_async gnet a b t = [] := by
  simp only [get_all_assets_async, h]
  rw [if_pos hs]

theorem get_all_assets_badbody (gnet : GqlNet) (a b t e : String)
    (h : gnet (gqlUrl b) (assetsPayload a) (gqlHeaders t) = .ok (200, .error e)) :
    get_all_assets_async gnet a b t = [] := by
  simp only [get_all_assets_async, h]
  simp

theorem get_all_assets_gqlerrors (gnet : GqlNet) (a b t : String) (data : Json)
    (h : gnet (gqlUrl b) (assetsPayload a) (gqlHeaders t) = .ok (200, .ok data))
    (he : (data.lookup "errors").isSome) :
    get_all_assets_async gnet a b t = [] := by
  simp only [get_all_assets_async, h]
  simp [he]

set_option maxRecDepth 8192 in
/-- Claim C6: `get_all_assets` issues a single GraphQL query with a fixed
retrieval limit of 50,000 and returns an empty list, not an error, whenever
the HTTP status is not a success, the response carries a GraphQL-level
errors payload, the `data.assets` field is absent or malformed, or any
exception occurs — so the caller cannot distinguish an empty asset type from
a failed call. -/
theorem claim_C6 (gnet : GqlNet) (asset_type_id base_url bearer_token : String) :
    (∃ pre suf : List Char,
      assetsQuery.data = pre ++ ("limit: 50000").data ++ suf) ∧
    (∀ gnet2 : GqlNet,
      gnet2 (gqlUrl base_url) (assetsPayload asset_type_id) (gqlHeaders bearer_token)
        = gnet (gqlUrl base_url) (assetsPayload asset_type_id) (gqlHeaders bearer_token) →
      get_all_assets_async gnet2 asset_type_id base_url bearer_token
        = get_all_assets_async gnet asset_type_id base_url bearer_token) ∧
    (∀ e : String,
      gnet (gqlUrl base_url) (assetsPayload asset_type_id) (gqlHeaders bearer_token)
        = .error e →
      get_all_assets_async gnet asset_type_id base_url bearer_token = []) ∧
    (∀ (status : Nat) (body : Except String Json), status ≠ 200 →
      gnet (gqlUrl base_url) (assetsPayload asset_type_id) (gqlHeaders bearer_token)
        = .ok (status, body) →
      get_all_assets_async gnet asset_type_id base_url bearer_token = []) ∧
    (∀ e : String,
      gnet (gqlUrl base_url) (assetsPayload asset_type_id) (gqlHeaders bearer_token)
        = .ok (200, .error e) →
      get_all_assets_async gnet asset_type_id base_url bearer_token = []) ∧
    (∀ data : Json,
      gnet (gqlUrl base_url) (assetsPayload asset_type_id) (gqlHeaders bearer_token)
        = .ok (200, .ok data) →
      ((data.lookup "errors").isSome ∨
        data.lookup "data" = none ∨
        (∃ d, data.lookup "data" = some d ∧ d.lookup "assets" = none) ∨
        (∃ d aval, data.lookup "data" = some d ∧ d.lookup "assets" = some aval ∧
          ∀ xs, aval ≠ Json.arr xs) ∨
        (∃ d xs, data.lookup "data" = some d ∧ d.lookup "assets" = some (Json.arr xs) ∧
          extractIds xs = none)) →
      get_all_assets_async gnet asset_type_id base_url bearer_token = []) ∧
    (get_all_assets_async wGqlEmptyOk asset_type_id base_url bearer_token = [] ∧
      get_all_assets_async wGqlDown asset_type_id base_url bearer_token = []) := by
  refine ⟨⟨("\n    query Assets($typeId: UUID!) \x7b\n        assets(\n            where: \x7b type: \x7b id: \x7b eq: $typeId \x7d \x7d \x7d\n            ").data,
    ("\n        ) \x7b\n            id\n        \x7d\n    \x7d\n    ").data, by decide⟩,
    ?_, ?_, ?_, ?_, ?_, rfl, rfl⟩
  · intro gnet2 h
    simp only [get_all_assets_async, h]
  · intro e h
    exact get_all_assets_error gnet _ _ _ _ h
  · intro status body hs h
    exact get_all_assets_non200 gnet _ _ _ status body hs h
  · intro e h
    exact get_all_assets_badbody gnet _ _ _ _ h
  · intro data h hbad
    rcases hbad with he | hd | ⟨d, hd, ha⟩ | ⟨d, aval, hd, ha, harr⟩ | ⟨d, xs, hd, ha, hex⟩
    · exact get_all_assets_gqlerrors gnet _ _ _ data h he
    · simp only [get_all_assets_async, h]
      simp [hd]
    · simp only [get_all_assets_async, h]
      by_cases he : (data.lookup "errors").isSome
      · simp [he]
      · simp [he, hd, ha]
    · simp only [get_all_assets_async, h]
      by_cases he : (data.lookup "errors").isSome
      · simp [he]
      · simp only [Bool.not_eq_true] at he
        simp only [he, Bool.false_eq_true, if_false, hd, ha]
        cases aval with
        | arr xs => exact absurd rfl (harr xs)
        | null => rfl
        | bool v => rfl
        | num v => rfl
        | str v => rfl
        | obj v => rfl
    · simp only [get_all_assets_async, h]
      by_cases he : (data.lookup "errors").isSome
      · simp [he]
      · simp [he, hd, ha, hex]

/-- Concrete instance of C6: a network failure and an HTTP 500 both yield
`[]`, exactly like a successful call that finds no assets. -/
theorem claim_C6_witness :
    get_all_assets_async wGqlDown "t1" "https://x" "tok" = [] ∧
    get_all_assets_async wGql500 "t1" "https://x" "tok" = [] :=
  ⟨(claim_C6 wGqlDown "t1" "https://x" "tok").2.2.1 "boom" rfl,
   (claim_C6 wGql500 "t1" "https://x" "tok").2.2.2.1 500 (.ok Json.null) (by decide) rfl⟩

/-! ## Lemmas about the report builder -/

theorem process_asset_type_empty (gnet : GqlNet) (net : Net) (tid nm b t : String)
    (h : get_all_assets_async gnet tid b t = []) :
    process_asset_type gnet net tid nm b t = [] := by
  simp [process_asset_type, h]

theorem process_asset_type_rows (gnet : GqlNet) (net : Net) (tid nm b t : String) :
    ∀ row ∈ process_asset_type gnet net tid nm b t, row.assetTypeId = tid := by
  intro row hrow
  simp only [process_asset_type] at hrow
  by_cases h : (get_all_assets_async gnet tid b t).isEmpty = true
  · rw [if_pos h] at hrow
    simp at hrow
  · rw [if_neg h] at hrow
    rcases List.mem_map.mp hrow with ⟨aid, _, hrfl⟩
    rw [← hrfl]

theorem mem_pyDictInsert {α : Type} (m : List (String × α)) (k : String) (v : α)
    (p : String × α) (hp : p ∈ pyDictInsert m k v) : p = (k, v) ∨ p ∈ m := by
  unfold pyDictInsert at hp
  by_cases hs : (dictFind m k).isSome
  · rw [if_pos hs] at hp
    rcases List.mem_map.mp hp with ⟨q, hq, hpq⟩
    by_cases hqk : q.1 = k
    · left
      rw [← hpq]
      simp [hqk]
    · right
      rw [← hpq]
      simp only [hqk, if_false]
      exact hq
  · rw [if_neg hs] at hp
    rcases List.mem_append.mp hp with h | h
    · right
      exact h
    · left
      simpa using h

theorem mainLoop_entries (gnet : GqlNet) (net : Net) (nameOf : String → Option String)
    (b t : String) :
    ∀ (tids : List String) (acc : List (String × List Row)),
      (∀ p ∈ acc, p.2 ≠ [] ∧ ∃ tid, (∀ row ∈ p.2, row.assetTypeId = tid)
        ∧ get_all_assets_async gnet tid b t ≠ []) →
      ∀ p ∈ tids.foldl (mainLoopStep gnet net nameOf b t) acc,
        p.2 ≠ [] ∧ ∃ tid, (∀ row ∈ p.2, row.assetTypeId = tid)
          ∧ get_all_assets_async gnet tid b t ≠ [] := by
  intro tids
  induction tids with
  | nil =>
    intro acc hacc p hp
    exact hacc p hp
  | cons tid rest ih =>
    intro acc hacc p hp
    rw [List.foldl_cons] at hp
    apply ih _ _ p hp
    intro q hq
    simp only [mainLoopStep] at hq
    by_cases hdf : (process_asset_type gnet net tid (resolveTypeName nameOf tid) b t).isEmpty
      = true
    · rw [if_pos hdf] at hq
      exact hacc q hq
    · rw [if_neg hdf] at hq
      rcases mem_pyDictInsert _ _ _ _ hq with h | h
      · refine ⟨?_, tid, ?_, ?_⟩
        · rw [h]
          intro hemp
          apply hdf
          rw [List.isEmpty_iff]
          exact hemp
        · intro row hrow
          rw [h] at hrow
          exact process_asset_type_rows gnet net tid (resolveTypeName nameOf tid) b t
            row hrow
        · intro hemp
          exact hdf (by rw [process_asset_type_empty gnet net tid _ b t hemp]; rfl)
      · exact hacc q h

theorem buildDataframes_entries (gnet : GqlNet) (net : Net)
    (nameOf : String → Option String) (b t : String) (tids : List String) :
    ∀ p ∈ buildDataframes gnet net nameOf b t tids,
      p.2 ≠ [] ∧ ∃ tid, (∀ row ∈ p.2, row.assetTypeId = tid)
        ∧ get_all_assets_async gnet tid b t ≠ [] := by
  intro p hp
  exact mainLoop_entries gnet net nameOf b t tids [] (by intro q hq; simp at hq) p hp

theorem summaryRows_mem (dfs : List (String × List Row)) :
    ∀ s ∈ summaryRows dfs, ∃ p, p ∈ dfs ∧ p.2 ≠ [] ∧ s = mkSummary p := by
  induction dfs with
  | nil =>
    intro s hs
    simp [summaryRows] at hs
  | cons q rest ih =>
    intro s hs
    match q with
    | (nm, []) =>
      rw [summaryRows] at hs
      rcases ih s hs with ⟨p, hp, hne, hk⟩
      exact ⟨p, List.mem_cons_of_mem _ hp, hne, hk⟩
    | (nm, r0 :: tl) =>
      rw [summaryRows] at hs
      rcases List.mem_cons.mp hs with h | h
      · exact ⟨(nm, r0 :: tl), List.mem_cons_self _ _, by simp, h⟩
      · rcases ih s h with ⟨p, hp, hne, hk⟩
        exact ⟨p, List.mem_cons_of_mem _ hp, hne, hk⟩

/-- Claim C7: for every configured asset type whose enumeration yields zero
asset ids (including when enumeration fails, e.g. on HTTP 500), the report
builder produces no rows, no sheet, and no summary entry for that asset
type — every stored DataFrame is non-empty, all its rows carry an asset type
whose enumeration was non-empty, and so does every summary entry. -/
theorem claim_C7 (gnet : GqlNet) (net : Net) (nameOf : String → Option String)
    (b t : String) :
    (∀ tid nm : String, get_all_assets_async gnet tid b t = [] →
      process_asset_type gnet net tid nm b t = []) ∧
    (∀ (tid nm : String) (status : Nat) (body : Except String Json), status ≠ 200 →
      gnet (gqlUrl b) (assetsPayload tid) (gqlHeaders t) = .ok (status, body) →
      process_asset_type gnet net tid nm b t = []) ∧
    (∀ (tids : List String) (p : String × List Row),
      p ∈ buildDataframes gnet net nameOf b t tids →
      p.2 ≠ [] ∧ ∃ tid, (∀ row ∈ p.2, row.assetTypeId = tid)
        ∧ get_all_assets_async gnet tid b t ≠ []) ∧
    (∀ (tids : List String) (s : SummaryRow),
      s ∈ summaryRows (buildDataframes gnet net nameOf b t tids) →
      get_all_assets_async gnet s.assetTypeId b t ≠ []) := by
  refine ⟨?_, ?_, ?_, ?_⟩
  · intro tid nm h
    exact process_asset_type_empty gnet net tid nm b t h
  · intro tid nm status body hs h
    exact process_asset_type_empty gnet net tid nm b t
      (get_all_assets_non200 gnet tid b t status body hs h)
  · intro tids p hp
    exact buildDataframes_entries gnet net nameOf b t tids p hp
  · intro tids s hs
    rcases summaryRows_mem _ s hs with ⟨p, hp, hne, hk⟩
    rcases buildDataframes_entries gnet net nameOf b t tids p hp with
      ⟨_, tid, hrows, henum⟩
    match p, hne with
    | (nm, r0 :: tl), _ =>
      have hid : s.assetTypeId = r0.assetTypeId := by
        rw [hk]
        simp [mkSummary]
      rw [hid, hrows r0 (List.mem_cons_self _ _)]
      exact henum

/-- Concrete instance of C7: a network failure and an HTTP 500 during
enumeration both make the type's DataFrame empty, so it is dropped. -/
theorem claim_C7_witness :
    process_asset_type wGqlDown wNetTotals "t1" "T1" "https://x" "tok" = [] ∧
    process_asset_type wGql500 wNetTotals "t1" "T1" "https://x" "tok" = [] :=
  ⟨(claim_C7 wGqlDown wNetTotals (fun _ => none) "https://x" "tok").1 "t1" "T1" rfl,
   (claim_C7 wGql500 wNetTotals (fun _ => none) "https://x" "tok").2.1 "t1" "T1" 500
     (.ok Json.null) (by decide) rfl⟩

theorem sum_map_add_int {α : Type} (l : List α) (f g : α → Int) :
    (l.map f).sum + (l.map g).sum = (l.map (fun x => f x + g x)).sum := by
  induction l with
  | nil => simp
  | cons x xs ih =>
    simp only [List.map_cons, List.sum_cons]
    rw [← ih]
    ring

theorem summaryRows_eq (dfs : List (String × List Row)) :
    summaryRows dfs = (dfs.filter (fun p => !p.2.isEmpty)).map mkSummary := by
  induction dfs with
  | nil => rfl
  | cons q rest ih =>
    match q with
    | (nm, []) => simp [summaryRows, List.filter_cons, ih]
    | (nm, r0 :: tl) => simp [summaryRows, List.filter_cons, ih]

/-- Claim C8: the summary computed for the Excel output contains, for each
retained (non-empty) asset type, its name, its id, its asset count, the sum
of its attribute counts, the sum of its incoming plus outgoing relation
counts, and the sum of its responsibility counts, followed by exactly one
trailing `TOTAL` row whose numeric fields are the sums of the corresponding
fields over all retained asset types. -/
theorem claim_C8 (dfs : List (String × List Row)) :
    summaryRows dfs = (dfs.filter (fun p => !p.2.isEmpty)).map mkSummary ∧
    (∀ p : String × List Row,
      (mkSummary p).assetType = p.1 ∧
      (mkSummary p).assetTypeId = ((p.2.head?).map (fun r => r.assetTypeId)).getD "" ∧
      (mkSummary p).totalAssets = p.2.length ∧
      (mkSummary p).totalAttributes = colSum p.2 (fun r => r.attributeCount) ∧
      (mkSummary p).totalRelations
        = (p.2.map (fun r => (r.incomingRelationCount.asInt).getD 0
            + (r.outgoingRelationCount.asInt).getD 0)).sum ∧
      (mkSummary p).totalResponsibilities
        = colSum p.2 (fun r => r.responsibilitiesRelationCount)) ∧
    (summaryRows dfs ≠ [] →
      summarySheet dfs = summaryRows dfs ++ [totalsRow (summaryRows dfs)]) ∧
    (totalsRow (summaryRows dfs)).assetType = "TOTAL" ∧
    (totalsRow (summaryRows dfs)).totalAssets
      = ((dfs.filter (fun p => !p.2.isEmpty)).map (fun p => p.2.length)).sum ∧
    (totalsRow (summaryRows dfs)).totalAttributes
      = ((dfs.filter (fun p => !p.2.isEmpty)).map
          (fun p => colSum p.2 (fun r => r.attributeCount))).sum ∧
    (totalsRow (summaryRows dfs)).totalRelations
      = ((dfs.filter (fun p => !p.2.isEmpty)).map
          (fun p => colSum p.2 (fun r => r.incomingRelationCount)
            + colSum p.2 (fun r => r.outgoingRelationCount))).sum ∧
    (totalsRow (summaryRows dfs)).totalResponsibilities
      = ((dfs.filter (fun p => !p.2.isEmpty)).map
          (fun p => colSum p.2 (fun r => r.responsibilitiesRelationCount))).sum ∧
    (∀ (gnet : GqlNet) (net : Net) (nameOf : String → Option String) (b t : String)
      (tids : List String) (p : String × List Row),
      p ∈ buildDataframes gnet net nameOf b t tids →
      ∀ r ∈ p.2, r.assetTypeId = (mkSummary p).assetTypeId) := by
  refine ⟨summaryRows_eq dfs, ?_, ?_, rfl, ?_, ?_, ?_, ?_, ?_⟩
  · intro p
    refine ⟨rfl, rfl, rfl, rfl, ?_, rfl⟩
    simp only [mkSummary, colSum]
    exact sum_map_add_int _ _ _
  · intro hne
    simp only [summarySheet]
    rw [if_neg (by simpa [List.isEmpty_iff] using hne)]
  · simp only [totalsRow]
    rw [summaryRows_eq, List.map_map]
    rfl
  · simp only [totalsRow]
    rw [summaryRows_eq, List.map_map]
    rfl
  · simp only [totalsRow]
    rw [summaryRows_eq, List.map_map]
    rfl
  · simp only [totalsRow]
    rw [summaryRows_eq, List.map_map]
    rfl
  · intro gnet net nameOf b t tids p hp r hr
    rcases buildDataframes_entries gnet net nameOf b t tids p hp with
      ⟨hne, tid, hrows, _⟩
    match p, hne with
    | (nm, r0 :: tl), _ =>
      have hid : (mkSummary (nm, r0 :: tl)).assetTypeId = r0.assetTypeId := by
        simp [mkSummary]
      rw [hid, hrows r hr, hrows r0 (List.mem_cons_self _ _)]

/-- Concrete instance of C8: a one-type report gets its summary rows followed
by exactly the one trailing totals row. -/
theorem claim_C8_witness :
    summarySheet [("T", [wRow])]
      = summaryRows [("T", [wRow])] ++ [totalsRow (summaryRows [("T", [wRow])])] :=
  (claim_C8 [("T", [wRow])]).2.2.1 (by simp [summaryRows])

/-! ## Lemmas about CSV serialisation -/

theorem mk_data (s : String) : String.mk s.data = s := rfl

theorem data_mk (l : List Char) : (String.mk l).data = l := rfl

theorem csvParse_plain :
    ∀ (l rest fld : List Char) (row : List String) (acc : List (List String)),
      (∀ c ∈ l, c ≠ ',' ∧ c ≠ '"' ∧ c ≠ '\n') →
      csvParseQ false (l ++ rest) fld row acc = csvParseQ false rest (fld ++ l) row acc := by
  intro l
  induction l with
  | nil =>
    intro rest fld row acc _
    simp
  | cons c cs ih =>
    intro rest fld row acc h
    have hc := h c (List.mem_cons_self _ _)
    simp only [List.cons_append]
    rw [csvParseQ]
    rw [if_neg hc.1, if_neg hc.2.2, if_neg (fun hand => hc.2.1 hand.1)]
    rw [ih rest (fld ++ [c]) row acc (fun x hx => h x (List.mem_cons_of_mem _ hx))]
    simp [List.append_assoc]

theorem csvParse_quoted :
    ∀ (l rest fld : List Char) (row : List String) (acc : List (List String)),
      (rest.head? = some ',' ∨ rest.head? = some '\n') →
      csvParseQ true (escapeChars l ++ '"' :: rest) fld row acc
        = csvParseQ false rest (fld ++ l) row acc := by
  intro l
  induction l with
  | nil =>
    intro rest fld row acc hrest
    match rest, hrest with
    | c2 :: rest2, hrest =>
      have hc2 : c2 ≠ '"' := by
        rcases hrest with h | h <;> simp only [List.head?_cons, Option.some.injEq] at h <;>
          rw [h] <;> decide
      rw [escapeChars]
      simp only [List.nil_append]
      conv_lhs => rw [csvParseQ]
      rw [if_pos rfl, if_neg hc2]
      simp
  | cons c cs ih =>
    intro rest fld row acc hrest
    rw [escapeChars]
    by_cases hc : c = '"'
    · rw [if_pos hc]
      simp only [List.cons_append]
      conv_lhs => rw [csvParseQ]
      rw [if_pos rfl, if_pos rfl]
      rw [ih rest (fld ++ ['"']) row acc hrest]
      rw [hc]
      simp [List.append_assoc]
    · rw [if_neg hc]
      cases hesc : escapeChars cs with
      | nil =>
        simp only [List.cons_append, hesc, List.nil_append]
        conv_lhs => rw [csvParseQ]
        rw [if_neg hc]
        have hih := ih rest (fld ++ [c]) row acc hrest
        rw [hesc, List.nil_append] at hih
        rw [hih]
        simp [List.append_assoc]
      | cons e es =>
        simp only [List.cons_append, hesc]
        conv_lhs => rw [csvParseQ]
        rw [if_neg hc]
        have hih := ih rest (fld ++ [c]) row acc hrest
        rw [hesc] at hih
        simp only [List.cons_append] at hih
        rw [hih]
        simp [List.append_assoc]

theorem csvParse_field (s : String) :
    ∀ (rest : List Char) (row : List String) (acc : List (List String)),
      (rest.head? = some ',' ∨ rest.head? = some '\n') →
      csvParseQ false (csvFieldChars s ++ rest) [] row acc
        = csvParseQ false rest s.data row acc := by
  intro rest row acc hrest
  unfold csvFieldChars
  by_cases hq : needsQuoteChars s.data = true
  · rw [if_pos hq]
    simp only [List.cons_append, List.append_assoc]
    conv_lhs => rw [csvParseQ]
    rw [if_neg (by decide), if_neg (by decide), if_pos ⟨rfl, rfl⟩]
    have h := csvParse_quoted s.data rest [] row acc hrest
    simp only [List.nil_append] at h
    simpa using h
  · rw [if_neg hq]
    have hchars : ∀ c ∈ s.data, c ≠ ',' ∧ c ≠ '"' ∧ c ≠ '\n' := by
      intro c hc
      refine ⟨?_, ?_, ?_⟩ <;> intro heq <;> apply hq <;>
        simp only [needsQuoteChars, List.any_eq_true] <;>
        exact ⟨c, hc, by rw [heq]; decide⟩
    have h := csvParse_plain s.data rest [] row acc hchars
    simpa using h

theorem csvParse_line :
    ∀ (cells : List String) (rest : List Char) (row : List String)
      (acc : List (List String)), cells ≠ [] →
      csvParseQ false (csvLineChars cells ++ '\n' :: rest) [] row acc
        = csvParseQ false rest [] [] (acc ++ [row ++ cells]) := by
  intro cells
  induction cells with
  | nil =>
    intro rest row acc h
    exact absurd rfl h
  | cons c cs ih =>
    intro rest row acc _
    cases cs with
    | nil =>
      rw [csvLineChars]
      rw [csvParse_field c ('\n' :: rest) row acc (Or.inr rfl)]
      conv_lhs => rw [csvParseQ]
      rw [if_neg (by decide), if_pos rfl, mk_data]
    | cons c2 cs2 =>
      rw [csvLineChars]
      simp only [List.append_assoc, List.cons_append]
      rw [csvParse_field c (',' :: (csvLineChars (c2 :: cs2) ++ '\n' :: rest)) row acc
        (Or.inl rfl)]
      conv_lhs => rw [csvParseQ]
      rw [if_pos rfl, mk_data]
      rw [ih rest (row ++ [c]) acc (by simp)]
      simp [List.append_assoc]

theorem csvParse_file :
    ∀ (grid : List (List String)) (acc : List (List String)),
      (∀ r ∈ grid, r ≠ []) →
      csvParseQ false (csvFileChars grid) [] [] acc = acc ++ grid := by
  intro grid
  induction grid with
  | nil =>
    intro acc _
    rw [csvFileChars, csvParseQ]
    simp
  | cons r rs ih =>
    intro acc h
    rw [csvFileChars]
    rw [csvParse_line r (csvFileChars rs) [] acc (h r (List.mem_cons_self _ _))]
    rw [ih (acc ++ [[] ++ r]) (fun q hq => h q (List.mem_cons_of_mem _ hq))]
    simp

/-- Claim C9: writing a report to CSV and reading it back reproduces exactly
the rows of the in-memory report table, with the column order `assetId,
assetTypeName, assetTypeId, attributeCount, incomingRelationCount,
outgoingRelationCount, responsibilitiesRelationCount` and the same cell
values, for every report produced by the builder. -/
theorem claim_C9 (gnet : GqlNet) (net : Net) (nameOf : String → Option String)
    (b t : String) (tids : List String) :
    csvParse (write_report (finalRows (buildDataframes gnet net nameOf b t tids)))
      = headerCells
          :: (finalRows (buildDataframes gnet net nameOf b t tids)).map rowCells ∧
    headerCells = ["assetId", "assetTypeName", "assetTypeId", "attributeCount",
      "incomingRelationCount", "outgoingRelationCount",
      "responsibilitiesRelationCount"] := by
  refine ⟨?_, rfl⟩
  unfold csvParse write_report
  rw [data_mk]
  rw [csvParse_file _ [] ?_]
  · simp
  · intro r hr
    rcases List.mem_cons.mp hr with h | h
    · rw [h]
      simp [headerCells]
    · rcases List.mem_map.mp h with ⟨row, _, hrfl⟩
      rw [← hrfl]
      simp [rowCells]

end Collibra
